import Mathlib

/-!
Shallow embedding of the Precure commercial chatbot (purikyuadaisugiAI.py and
taihiAI.py).  Text is modelled as Lean `String` (a list of characters, as in
Python); keyword matching is literal substring containment, exactly as the
Python `in` operator; `str.lower()` is modelled character-wise (ASCII letters
are lowered, every other character — in particular every Japanese character
appearing in the keyword tables — is left unchanged, which agrees with Python
on all inputs the tables can distinguish).  Numeric scores that the source
holds in Python floats (engagement level, feedback score) are modelled as
rationals with the same literals.
-/

namespace PrecureAI

/-! ### String primitives (Python `in`, `str.lower()`) -/

/-- `listPre p s` is true when the character list `p` is a prefix of `s`. -/
def listPre : List Char → List Char → Bool
  | [], _ => true
  | _ :: _, [] => false
  | a :: p, b :: s => a == b && listPre p s

/-- `listSub p s` is true when `p` occurs contiguously inside `s`
(the semantics of Python's `p in s` on strings, including `[] ⊆ s`). -/
def listSub (p : List Char) : List Char → Bool
  | [] => listPre p []
  | b :: s => listPre p (b :: s) || listSub p s

/-- Python's `pat in s` for strings. -/
def strHas (s pat : String) : Bool := listSub pat.data s.data

/-- Character-wise lower-casing (`str.lower()` restricted to ASCII;
identity on all non-ASCII characters, e.g. every Japanese character). -/
def charLower (c : Char) : Char :=
  if 65 ≤ c.toNat && c.toNat ≤ 90 then Char.ofNat (c.toNat + 32) else c

/-- Python's `text.lower()` under the character-wise model. -/
def lowerStr (s : String) : String := ⟨s.data.map charLower⟩

/-! ### Label tags used by the source (string constants) -/

def neutralTag : String := "neutral"
def cuteTag : String := "cute"
def tsundereTag : String := "tsundere"
def sweetTag : String := "sweet"
def morningTag : String := "morning"
def afternoonTag : String := "afternoon"
def eveningTag : String := "evening"
def emptyStr : String := ""

/-! ### EnhancedPrecureLearningModule: keyword tables (source lines 185-230) -/

/-- `self.emotion_patterns`: the fixed emotion-category keyword table, in its
declaration order (Python dicts preserve insertion order). -/
def emotionPatterns : List (String × List String) :=
  [ ("precure_joy", ["やった", "キラキラ", "最高", "わぁい", "嬉しい", "ハッピー"]),
    ("precure_excitement", ["すごい", "かっこいい", "素敵", "キュン", "ドキドキ"]),
    ("precure_curiosity", ["知りたい", "どうして", "気になる", "教えて", "見たい"]),
    ("precure_concern", ["心配", "大丈夫", "不安", "困った", "どうしよう"]),
    ("precure_gratitude", ["ありがとう", "感謝", "うれしい", "おかげで", "助かった"]),
    ("precure_shy", ["恥ずかしい", "ちょっと", "でも", "もじもじ", "えへへ"]),
    ("precure_tsundere", ["別に", "ふんっ", "まぁ", "そんなことない", "べつに"]),
    ("content_request", ["動画", "検索", "探して", "見つけて", "コンテンツ", "YouTube"]) ]

/-- The fixed "affectionate" keyword set checked in `detect_emotion_and_mode`. -/
def affectionateKeywords : List String := ["ねぇ", "お願い", "一緒", "ぎゅー"]

/-- Keywords of `detect_precure_focus`. -/
def precureFocusKeywords : List String :=
  ["プリキュア", "キュア", "変身", "必殺技", "妖精", "アニメ", "魔法少女"]

/-- Keywords of `detect_content_request`. -/
def contentKeywords : List String :=
  ["動画", "検索", "探して", "見つけて", "コンテンツ", "YouTube", "商用", "ビジネス"]

/-! ### Classifier: detect_emotion_and_mode (source lines 196-220) -/

/-- `sum(1 for keyword in keywords if keyword in text_lower)`. -/
def scoreOf (tl : String) (kws : List String) : Nat :=
  kws.countP (fun k => strHas tl k)

/-- The per-category scores of the lowered input, in declaration order. -/
def emotionScores (text : String) : List (String × Nat) :=
  emotionPatterns.map (fun ek => (ek.1, scoreOf (lowerStr text) ek.2))

/-- Keep only the categories whose score is positive (the `if score > 0`
guard when building `emotion_scores`), preserving declaration order. -/
def posFilter (l : List (String × Nat)) : List (String × Nat) :=
  l.filter (fun p => decide (0 < p.2))

/-- The entries of `emotion_scores` in iteration order. -/
def detectPos (text : String) : List (String × Nat) :=
  posFilter (emotionScores text)

/-- Python's `max(emotion_scores, key=emotion_scores.get)`: scan left to
right, replace the current best only on a strictly larger score, so the
first entry attaining the maximum wins. -/
def pickMax (best : String × Nat) : List (String × Nat) → String × Nat
  | [] => best
  | p :: t => pickMax (if best.2 < p.2 then p else best) t

/-- The mode-resolution block that the source runs only when
`emotion_scores` is non-empty (lines 212-218). -/
def modeFor (tl : String) (e : String) : String :=
  if strHas e tsundereTag then tsundereTag
  else if affectionateKeywords.any (fun k => strHas tl k) then sweetTag
  else cuteTag

/-- `EnhancedPrecureLearningModule.detect_emotion_and_mode`.  When no
category scores, the defaults `('neutral', 'cute')` are returned and the
mode-resolution block is skipped entirely. -/
def detectEmotionAndMode (text : String) : String × String :=
  match detectPos text with
  | [] => (neutralTag, cuteTag)
  | h :: t => ((pickMax h t).1, modeFor (lowerStr text) (pickMax h t).1)

/-- `detect_precure_focus`. -/
def detectPrecureFocus (text : String) : Bool :=
  precureFocusKeywords.any (fun k => strHas (lowerStr text) k)

/-- `detect_content_request`. -/
def detectContentRequest (text : String) : Bool :=
  contentKeywords.any (fun k => strHas (lowerStr text) k)

/-! ### Reference classifier for claim C3 -/

/-- The largest score occurring in a score list (0 for the empty list). -/
def maxScore (l : List (String × Nat)) : Nat :=
  l.foldr (fun p m => max p.2 m) 0

/-- Reference value stated by the spec for the detected emotion: the
category whose keyword-match count is maximal, ties broken in favour of the
category declared first; `neutral` when no keyword of any category occurs.
This definition follows the spec's words and is compared with
`detectEmotionAndMode`, which follows the source. -/
def refEmotion (text : String) : String :=
  let scores := emotionScores text
  let m := maxScore scores
  if m = 0 then neutralTag
  else (((scores.find? (fun p => p.2 == m)).map Prod.fst).getD neutralTag)

/-! ### PrecureCommercialAI: greeting detection and the branch order of
generate_response (source lines 501-539) -/

/-- `is_greeting`'s fixed pattern list (source lines 526-529). -/
def greetingPatterns : List String :=
  ["おはよう", "こんにちは", "こんばんは", "はじめまして", "よろしく", "hello", "hi", "はい", "やあ"]

/-- `PrecureCommercialAI.is_greeting`: case-insensitive substring
containment of any greeting pattern. -/
def isGreeting (text : String) : Bool :=
  greetingPatterns.any (fun p => strHas (lowerStr text) p)

/-- The three mutually exclusive outer branches of `generate_response`,
tried in source order. -/
inductive RBranch where
  | greeting
  | contentSearch
  | base
deriving DecidableEq

/-- The branch `generate_response` takes for a given input:
greeting check first, then the content-search override (which also requires
a configured YouTube extractor), else the base-response path. -/
def responseBranch (text : String) (hasExtractor : Bool) : RBranch :=
  if isGreeting text then RBranch.greeting
  else if detectContentRequest text && hasExtractor then RBranch.contentSearch
  else RBranch.base

/-! ### Time buckets and the greeting tables (source lines 322-374, 398-407, 533-539) -/

/-- `get_time_period`: morning for hours 5-11, afternoon for 12-17,
evening otherwise. -/
def getTimePeriod (hour : Nat) : String :=
  if 5 ≤ hour ∧ hour < 12 then morningTag
  else if 12 ≤ hour ∧ hour < 18 then afternoonTag
  else eveningTag

def morningCute : List String :=
  [ "おはようございます〜♪ 今日もプリキュア日和ですね〜 商用動画も探せちゃいます〜",
    "わぁ〜！おはよう〜♪ 朝からプリキュアパワー全開で商用コンテンツ検索です〜",
    "きゃー♪ おはようございます〜！今日も元気いっぱいで動画探しちゃいます〜" ]

def morningTsundere : List String :=
  [ "おはよう...別に早起きしたわけじゃないけど、商用動画なら探してあげる",
    "ふんっ、おはよう。朝からプリキュアの話と動画検索なら聞いてあげる",
    "べ、別に朝が好きなわけじゃないけど...商用コンテンツは得意なの" ]

def morningSweet : List String :=
  [ "おはよ〜♪ ぎゅーして〜♪ 朝から会えて嬉しい〜 動画も一緒に探そ〜？",
    "わぁい〜！おはよう〜♪ 今日も一緒に遊んで商用動画も見つけよ〜？",
    "おはよ〜♪ 朝ごはん食べた〜？一緒に食べながら動画探そ〜" ]

def afternoonCute : List String :=
  [ "こんにちは〜♪ お昼のプリキュア＆商用動画タイムですね〜",
    "わぁ〜！こんにちは〜♪ お昼休みに商用コンテンツ探しできて嬉しいです〜",
    "きゃー♪ こんにちは〜！午後も元気に動画検索頑張りましょう〜" ]

def afternoonTsundere : List String :=
  [ "こんにちは...お昼休みかしら？まぁ、商用動画探してあげてもいいけど",
    "ふんっ、こんにちは。午後からも動画検索付き合ってあげる",
    "べ、別にお昼が暇なわけじゃないけど...商用コンテンツは任せて" ]

def afternoonSweet : List String :=
  [ "こんにちは〜♪ お昼ご飯食べた〜？一緒に食べながら動画見よ〜",
    "わぁい〜！こんにちは〜♪ お昼寝する前に商用動画探そ〜？",
    "こんにちは〜♪ ぎゅーして〜♪ お昼も会えて嬉しい〜動画も探そ〜" ]

def eveningCute : List String :=
  [ "こんばんは〜♪ 夜のプリキュア＆商用動画タイムですね〜",
    "わぁ〜！こんばんは〜♪ 今日一日お疲れ様でした〜動画探しましょ〜",
    "きゃー♪ こんばんは〜！夜も素敵な動画見つけちゃいます〜" ]

def eveningTsundere : List String :=
  [ "こんばんは...今日も一日お疲れ様。商用動画探してあげてもいいよ",
    "ふんっ、こんばんは。夜の動画検索なら付き合ってあげる",
    "べ、別に心配してたわけじゃないけど...商用コンテンツは得意なの" ]

def eveningSweet : List String :=
  [ "こんばんは〜♪ お疲れ様〜♪ ぎゅーして癒されながら動画探そ〜？",
    "わぁい〜！こんばんは〜♪ 夜も一緒にいて動画も見よ〜？",
    "こんばんは〜♪ 今日も頑張ったね〜♪ えらいえらい〜動画も探そ〜" ]

/-- `self.time_based_greetings[period][mode]` (empty on keys the source
never produces). -/
def timeBasedGreetings (period mode : String) : List String :=
  if period = morningTag then
    (if mode = cuteTag then morningCute
     else if mode = tsundereTag then morningTsundere
     else if mode = sweetTag then morningSweet else [])
  else if period = afternoonTag then
    (if mode = cuteTag then afternoonCute
     else if mode = tsundereTag then afternoonTsundere
     else if mode = sweetTag then afternoonSweet else [])
  else if period = eveningTag then
    (if mode = cuteTag then eveningCute
     else if mode = tsundereTag then eveningTsundere
     else if mode = sweetTag then eveningSweet else [])
  else []

/-- Positional indexing with a default, used to model `random.choice`:
the random draw is an arbitrary index reduced modulo the list length. -/
def nthOr (l : List String) (i : Nat) (d : String) : String :=
  match l, i with
  | [], _ => d
  | a :: _, 0 => a
  | _ :: t, i + 1 => nthOr t i d

/-- `generate_time_based_greeting`: a uniform random draw from the greeting
list of the current time bucket and the resolved mode, modelled by the
index argument. -/
def generateTimeBasedGreeting (hour : Nat) (mode : String) (idx : Nat) : String :=
  nthOr (timeBasedGreetings (getTimePeriod hour) mode)
    (idx % (timeBasedGreetings (getTimePeriod hour) mode).length) emptyStr

/-! ### Engagement score: calculate_engagement (source lines 451-469) -/

/-- `self.favorite_precures` (source lines 303-311). -/
def favoritePrecures : List String :=
  [ "キュアブラック", "キュアホワイト", "キュアブルーム", "キュアイーグレット",
    "キュアドリーム", "キュアルージュ", "キュアレモネード", "キュアミント", "キュアアクア",
    "キュアピーチ", "キュアベリー", "キュアパイン", "キュアパッション",
    "キュアブロッサム", "キュアマリン", "キュアサンシャイン", "キュアムーンライト",
    "キュアメロディ", "キュアリズム", "キュアビート", "キュアミューズ",
    "キュアハッピー", "キュアサニー", "キュアピース", "キュアマーチ", "キュアビューティ",
    "キュアハート", "キュアダイヤモンド", "キュアロゼッタ", "キュアソード", "キュアエース" ]

/-- The content-search keywords of the engagement scorer (distinct from
`contentKeywords`; the entry `YouTube` is kept verbatim from the source,
where it is compared against the lowered text). -/
def engagementSearchKeywords : List String := ["動画", "検索", "YouTube", "商用"]

/-- Exclamation and decorative symbols scored by `calculate_engagement`. -/
def engagementSymbols : List String := ["!", "！", "♪", "〜"]

/-- Condition 1: a favourite-franchise character name occurs literally in
the raw (not lowered) text. -/
def condPrecure (text : String) : Bool :=
  favoritePrecures.any (fun p => strHas text p)

/-- Condition 2: a content-search keyword occurs in the lowered text. -/
def condSearch (text : String) : Bool :=
  engagementSearchKeywords.any (fun k => strHas (lowerStr text) k)

/-- Condition 3: the text is longer than 20 characters. -/
def condLong (text : String) : Bool := decide (20 < text.length)

/-- Condition 4: an exclamation or decorative symbol occurs in the text. -/
def condSymbol (text : String) : Bool :=
  engagementSymbols.any (fun s => strHas text s)

/-- The additive accumulation of `calculate_engagement`, with its four
condition outcomes abstracted: base 0.5, then +0.3, +0.2, +0.1, +0.1 in
source order, finally `min(base_score, 1.0)`. -/
def seqEngagement (a b c d : Bool) : ℚ :=
  let b0 : ℚ := 1/2
  let b1 := if a then b0 + 3/10 else b0
  let b2 := if b then b1 + 1/5 else b1
  let b3 := if c then b2 + 1/10 else b2
  let b4 := if d then b3 + 1/10 else b3
  min b4 1

/-- `PrecureCommercialAI.calculate_engagement`. -/
def calculateEngagement (text : String) : ℚ :=
  seqEngagement (condPrecure text) (condSearch text) (condLong text) (condSymbol text)

/-- The closed-form value stated by claim C5:
`min(1.0, 0.5 + 0.3·a + 0.2·b + 0.1·c + 0.1·d)`. -/
def engagementFlags (a b c d : Bool) : ℚ :=
  min ((1:ℚ)/2 + (if a then (3:ℚ)/10 else 0) + (if b then (1:ℚ)/5 else 0)
        + (if c then (1:ℚ)/10 else 0) + (if d then (1:ℚ)/10 else 0)) 1

/-! ### Topics, contexts and the interaction log (source lines 298, 409-449, 777-786) -/

def topicPrecure : String := "プリキュア"
def topicArt : String := "絵・アート"
def topicBiz : String := "ビジネス・商用"
def topicFriend : String := "友達・絆"
def topicDaily : String := "日常・感情"

def topicPrecureKeywords : List String := ["プリキュア", "キュア", "変身", "必殺技"]
def topicArtKeywords : List String := ["絵", "描く", "アート", "イラスト"]
def topicBizKeywords : List String := ["商用", "ビジネス", "動画", "YouTube", "コンテンツ"]
def topicFriendKeywords : List String := ["友達", "仲間", "一緒", "絆"]

/-- `get_main_topic`: first matching topic category in fixed priority
order, defaulting to the daily-life topic. -/
def getMainTopic (text : String) : String :=
  let tl := lowerStr text
  if topicPrecureKeywords.any (fun k => strHas tl k) then topicPrecure
  else if topicArtKeywords.any (fun k => strHas tl k) then topicArt
  else if topicBizKeywords.any (fun k => strHas tl k) then topicBiz
  else if topicFriendKeywords.any (fun k => strHas tl k) then topicFriend
  else topicDaily

/-- The per-turn label bundle built by `create_context` (constant fields
`user_id` and `session_id` are omitted). -/
structure ConversationContext where
  emotionState : String
  topicContinuity : Nat
  engagementLevel : ℚ
  personalityMode : String
  precureFocus : Bool
  contentRequest : Bool
deriving DecidableEq

/-- One entry of `self.conversation_history`
(input text, output text, context, timestamp, topic). -/
structure InteractionRecord where
  userInput : String
  aiResponse : String
  context : ConversationContext
  timestamp : Nat
  topic : String
deriving DecidableEq

/-- `calculate_topic_continuity`: how many of the last three logged turns
share the current turn's topic (0 while fewer than two turns are logged). -/
def calculateTopicContinuity (hist : List InteractionRecord) (text : String) : Nat :=
  if hist.length < 2 then 0
  else (((hist.drop (hist.length - 3)).map (fun r => getMainTopic r.userInput)).count
    (getMainTopic text))

/-- `create_context`. -/
def createContext (hist : List InteractionRecord) (text : String) : ConversationContext :=
  { emotionState := (detectEmotionAndMode text).1
    topicContinuity := calculateTopicContinuity hist text
    engagementLevel := calculateEngagement text
    personalityMode := (detectEmotionAndMode text).2
    precureFocus := detectPrecureFocus text
    contentRequest := detectContentRequest text }

/-- Appending to a `collections.deque(maxlen=cap)`: the new element goes to
the right and, when the capacity is exceeded, elements are evicted from the
left. -/
def dequeAppend (cap : Nat) (l : List α) (x : α) : List α :=
  let l2 := l ++ [x]
  if cap < l2.length then l2.drop (l2.length - cap) else l2

/-- `record_interaction`: build the history entry and append it to the
bounded log (`conversation_history = deque(maxlen=100)`, source line 298). -/
def recordInteraction (hist : List InteractionRecord) (input response : String)
    (ctx : ConversationContext) (ts : Nat) : List InteractionRecord :=
  dequeAppend 100 hist
    { userInput := input, aiResponse := response, context := ctx,
      timestamp := ts, topic := getMainTopic input }

/-- The effect of one `generate_response` call on `conversation_history`:
the greeting branch and the content-search branch return before
`record_interaction` is reached; only the base path logs the turn. -/
def generateResponseHistory (hist : List InteractionRecord) (input response : String)
    (ts : Nat) (hasExtractor : Bool) : List InteractionRecord :=
  match responseBranch input hasExtractor with
  | RBranch.greeting => hist
  | RBranch.contentSearch => hist
  | RBranch.base => recordInteraction hist input response (createContext hist input) ts

/-- The operations of `PrecureCommercialAI` that can see
`conversation_history`: a conversational turn (which may log), a feedback
score (`provide_feedback` reads the last entry only), and the read-only
inquiry commands of the chat loop. -/
inductive HistOp where
  | turn (input response : String) (ts : Nat) (hasExtractor : Bool)
  | feedback (score : ℚ)
  | modeQuery
  | summaryQuery

/-- How each operation transforms the interaction log. -/
def histStep (hist : List InteractionRecord) : HistOp → List InteractionRecord
  | HistOp.turn i r ts hasE => generateResponseHistory hist i r ts hasE
  | HistOp.feedback _ => hist
  | HistOp.modeQuery => hist
  | HistOp.summaryQuery => hist

/-! ### YouTubeCommercialExtractor.search_commercial_videos
(purikyuadaisugiAI.py lines 58-101, taihiAI.py lines 15-55) -/

/-- One `items[...]` entry of a successfully parsed search reply. -/
structure VideoItem where
  videoId : String
  title : String
  description : String
  channelTitle : String
  thumbnailUrl : String
  publishedAt : String
deriving DecidableEq

/-- The body of an HTTP reply: either JSON that parses to an item list, or
malformed data on which `response.json()` raises. -/
inductive JsonBody where
  | malformed
  | parsed (items : List VideoItem)
deriving DecidableEq

/-- The outcome of the `requests.get` call: a reply with a status code and
a body, or a raised timeout/transport error. -/
inductive FetchOutcome where
  | response (status : Nat) (body : JsonBody)
  | failure
deriving DecidableEq

/-- The `CommercialContent` record built for each item. -/
structure CommercialContent where
  videoId : String
  title : String
  description : String
  channel : String
  url : String
  thumbnail : String
  publishedAt : String
  licenseType : String
  embeddable : Bool
  commercialUse : Bool
deriving DecidableEq

def watchUrlBase : String := "https://www.youtube.com/watch?v="
def creativeCommonTag : String := "creativeCommon"
def ellipsisStr : String := "..."

/-- The per-item conversion inside the loop of `search_commercial_videos`
(description truncated to 200 characters plus an ellipsis). -/
def mkContent (it : VideoItem) : CommercialContent :=
  { videoId := it.videoId
    title := it.title
    description := String.mk (it.description.data.take 200) ++ ellipsisStr
    channel := it.channelTitle
    url := watchUrlBase ++ it.videoId
    thumbnail := it.thumbnailUrl
    publishedAt := it.publishedAt
    licenseType := creativeCommonTag
    embeddable := true
    commercialUse := true }

/-- `search_commercial_videos` as a function of the network outcome.  The
`try`/`except` of the source catches every exception locally, so the
embedding is a total function: a raised timeout or transport error and a
`response.json()` failure both land in the empty-list result, and a
non-200 status takes the explicit `else` branch returning `[]`. -/
def searchCommercialVideos (outcome : FetchOutcome) : List CommercialContent :=
  match outcome with
  | FetchOutcome.failure => []
  | FetchOutcome.response status body =>
    if status = 200 then
      match body with
      | JsonBody.malformed => []
      | JsonBody.parsed items => items.map mkContent
    else []

/-- A failing backend interaction in the sense of claim C7: a raised
timeout or transport error, a non-2xx status, or malformed JSON. -/
def failedOutcome (o : FetchOutcome) : Prop :=
  o = FetchOutcome.failure ∨
    (∃ s b, o = FetchOutcome.response s b ∧ (¬ (200 ≤ s ∧ s < 300) ∨ b = JsonBody.malformed))

/-! ### Feedback handling of the chat loop (source lines 954-979) -/

/-- The three feedback-reply families of the chat loop. -/
inductive FeedbackFamily where
  | highPraise
  | middling
  | needsImprovement
deriving DecidableEq

/-- `score = int(user_input) / 10.0`. -/
def provideFeedbackScore (n : Nat) : ℚ := (n : ℚ) / 10

/-- The family chosen by `if score >= 8 ... elif score >= 5 ... else`. -/
def feedbackReplyFamily (score : ℚ) : FeedbackFamily :=
  if 8 ≤ score then FeedbackFamily.highPraise
  else if 5 ≤ score then FeedbackFamily.middling
  else FeedbackFamily.needsImprovement

/-- The family the chat loop replies from when the bare integer `n` is
entered: the comparison is made against the already divided score. -/
def chatFeedbackFamily (n : Nat) : FeedbackFamily :=
  feedbackReplyFamily (provideFeedbackScore n)

/-- Modelled from the spec: the family the spec assigns to the raw score
`n`, 8-10 high praise, 5-7 neutral, 1-4 needs improvement.  Compared with
`chatFeedbackFamily`, which follows the source. -/
def specFeedbackFamily (n : Nat) : FeedbackFamily :=
  if 8 ≤ n then FeedbackFamily.highPraise
  else if 5 ≤ n then FeedbackFamily.middling
  else FeedbackFamily.needsImprovement

/-! ### Concrete sample inputs used by witnesses and counterexamples -/

def sampleGyu : String := "ぎゅー"
def sampleJoySweet : String := "嬉しいぎゅー"
def sampleNeutralText : String := "てすと"
def sampleGreet : String := "おはよう"
def sampleHai : String := "はい"
def samplePlain : String := "天気"
def sampleReply : String := "れすぽんす"
def hiWord : String := "hi"

def sampleRecord : InteractionRecord :=
  { userInput := samplePlain, aiResponse := sampleReply,
    context := createContext [] samplePlain, timestamp := 0,
    topic := getMainTopic samplePlain }

/-! ## Helper lemmas -/

theorem nthOr_mem (l : List String) : ∀ (i : Nat) (d : String), i < l.length → nthOr l i d ∈ l := by
  induction l with
  | nil => intro i d h; simp at h
  | cons a t ih =>
    intro i d h
    cases i with
    | zero => simp [nthOr]
    | succ n =>
      have hn : n < t.length := by simpa using h
      exact List.mem_cons_of_mem a (ih n d hn)

theorem mem_nthOr_mod (l : List String) (i : Nat) (d : String) (h : l ≠ []) :
    nthOr l (i % l.length) d ∈ l := by
  have hl : 0 < l.length := List.length_pos.mpr h
  exact nthOr_mem l _ d (Nat.mod_lt _ hl)

theorem seq_eq_flags : ∀ a b c d : Bool, seqEngagement a b c d = engagementFlags a b c d := by
  intro a b c d
  simp only [seqEngagement, engagementFlags]
  cases a <;> cases b <;> cases c <;> cases d <;> norm_num

theorem seq_bounds : ∀ a b c d : Bool,
    (1:ℚ)/2 ≤ seqEngagement a b c d ∧ seqEngagement a b c d ≤ 1 := by
  intro a b c d
  simp only [seqEngagement]
  refine ⟨le_min ?_ (by norm_num), min_le_right _ 1⟩
  cases a <;> cases b <;> cases c <;> cases d <;> norm_num

theorem flags_mono : ∀ a b c d a' b' c' d' : Bool,
    (a = true → a' = true) → (b = true → b' = true) →
    (c = true → c' = true) → (d = true → d' = true) →
    engagementFlags a b c d ≤ engagementFlags a' b' c' d' := by
  intro a b c d a' b' c' d' h1 h2 h3 h4
  simp only [engagementFlags]
  apply min_le_min _ (le_refl 1)
  have g1 : (if a then (3:ℚ)/10 else 0) ≤ (if a' then (3:ℚ)/10 else 0) := by
    cases a
    · cases a' <;> norm_num
    · rw [h1 rfl]
  have g2 : (if b then (1:ℚ)/5 else 0) ≤ (if b' then (1:ℚ)/5 else 0) := by
    cases b
    · cases b' <;> norm_num
    · rw [h2 rfl]
  have g3 : (if c then (1:ℚ)/10 else 0) ≤ (if c' then (1:ℚ)/10 else 0) := by
    cases c
    · cases c' <;> norm_num
    · rw [h3 rfl]
  have g4 : (if d then (1:ℚ)/10 else 0) ≤ (if d' then (1:ℚ)/10 else 0) := by
    cases d
    · cases d' <;> norm_num
    · rw [h4 rfl]
  exact add_le_add (add_le_add (add_le_add (add_le_add (le_refl _) g1) g2) g3) g4

theorem dequeAppend_length_le {α : Type} (cap : Nat) (l : List α) (x : α)
    (h : l.length ≤ cap) : (dequeAppend cap l x).length ≤ cap := by
  simp only [dequeAppend]
  split
  next hc =>
    simp only [List.length_drop, List.length_append, List.length_cons, List.length_nil] at *
    omega
  next hc =>
    simp only [List.length_append, List.length_cons, List.length_nil] at *
    omega

theorem dequeAppend_lt {α : Type} (cap : Nat) (l : List α) (x : α)
    (h : l.length < cap) : dequeAppend cap l x = l ++ [x] := by
  simp only [dequeAppend]
  rw [if_neg]
  simp only [List.length_append, List.length_cons, List.length_nil]
  omega

theorem dequeAppend_full {α : Type} (l : List α) (x : α)
    (h : l.length = 100) : dequeAppend 100 l x = l.tail ++ [x] := by
  simp only [dequeAppend]
  rw [if_pos (by simp only [List.length_append, List.length_cons, List.length_nil]; omega)]
  have h1 : (l ++ [x]).length - 100 = 1 := by
    simp only [List.length_append, List.length_cons, List.length_nil]; omega
  rw [h1, List.drop_append_of_le_length (by omega), List.drop_one]

theorem histStep_length_le (hist : List InteractionRecord) (op : HistOp)
    (h : hist.length ≤ 100) : (histStep hist op).length ≤ 100 := by
  cases op with
  | turn i r ts hasE =>
    cases hR : responseBranch i hasE with
    | greeting => simpa [histStep, generateResponseHistory, hR] using h
    | contentSearch => simpa [histStep, generateResponseHistory, hR] using h
    | base =>
      simp only [histStep, generateResponseHistory, hR, recordInteraction]
      exact dequeAppend_length_le 100 hist _ h
  | feedback s => simpa [histStep] using h
  | modeQuery => simpa [histStep] using h
  | summaryQuery => simpa [histStep] using h

theorem foldl_histStep_le (ops : List HistOp) :
    ∀ hist : List InteractionRecord, hist.length ≤ 100 →
      (ops.foldl histStep hist).length ≤ 100 := by
  induction ops with
  | nil => intro hist h; simpa using h
  | cons op t ih =>
    intro hist h
    simp only [List.foldl_cons]
    exact ih _ (histStep_length_le hist op h)

/-! ## Claims C1, C5, C7, C8, C9, C10 -/

/-- Claim C1 (code bug exhibit): for a bare-integer feedback `n` the chat
loop computes `score = n/10` and then compares this already divided score
against the thresholds 8 and 5, so every score 1-10 — including the
boundary values 8 and 10 that the spec assigns to the high-praise family
and 5 and 7 assigned to the neutral family — is answered from the
needs-improvement family, while the spec-side mapping assigns 8 to high
praise and 5 to the neutral family. -/
theorem feedback_families_evaluated :
    chatFeedbackFamily 8 = FeedbackFamily.needsImprovement
    ∧ chatFeedbackFamily 10 = FeedbackFamily.needsImprovement
    ∧ chatFeedbackFamily 5 = FeedbackFamily.needsImprovement
    ∧ chatFeedbackFamily 7 = FeedbackFamily.needsImprovement
    ∧ chatFeedbackFamily 1 = FeedbackFamily.needsImprovement
    ∧ specFeedbackFamily 8 = FeedbackFamily.highPraise
    ∧ specFeedbackFamily 5 = FeedbackFamily.middling := by
  refine ⟨?_, ?_, ?_, ?_, ?_, ?_, ?_⟩ <;>
    norm_num [chatFeedbackFamily, feedbackReplyFamily, provideFeedbackScore, specFeedbackFamily]

/-- Claim C5: `calculate_engagement` returns exactly
`min(1.0, 0.5 + 0.3·a + 0.2·b + 0.1·c + 0.1·d)` over its four scoring
conditions, the value is monotonically non-decreasing when the set of
satisfied conditions grows, and it always lies in `[0,1]`. -/
theorem engagement_closed_form (text : String) :
    calculateEngagement text
        = engagementFlags (condPrecure text) (condSearch text) (condLong text) (condSymbol text)
    ∧ (∀ a b c d a' b' c' d' : Bool,
        (a = true → a' = true) → (b = true → b' = true) →
        (c = true → c' = true) → (d = true → d' = true) →
        engagementFlags a b c d ≤ engagementFlags a' b' c' d')
    ∧ 0 ≤ calculateEngagement text ∧ calculateEngagement text ≤ 1 := by
  refine ⟨seq_eq_flags _ _ _ _, flags_mono, ?_, ?_⟩
  · have h := (seq_bounds (condPrecure text) (condSearch text) (condLong text) (condSymbol text)).1
    have : (0:ℚ) ≤ 1/2 := by norm_num
    exact le_trans this h
  · exact (seq_bounds (condPrecure text) (condSearch text) (condLong text) (condSymbol text)).2

theorem engagement_closed_form_witness :
    engagementFlags false false true false ≤ engagementFlags true false true false :=
  (engagement_closed_form emptyStr).2.1 false false true false true false true false
    (fun _ => rfl) (fun h => h) (fun _ => rfl) (fun h => h)

/-- Claim C7: whenever the video-search call fails — a raised timeout or
transport error, a non-2xx status, or malformed JSON — the wrapper returns
the empty list (the `try`/`except` makes it total, so no exception reaches
the caller), and a genuine zero-result success also returns the empty
list, making the two indistinguishable at every call site. -/
theorem search_failure_yields_empty (o : FetchOutcome) (h : failedOutcome o) :
    searchCommercialVideos o = []
    ∧ searchCommercialVideos (FetchOutcome.response 200 (JsonBody.parsed [])) = [] := by
  constructor
  · rcases h with rfl | ⟨s, b, rfl, hsb⟩
    · rfl
    · rcases hsb with hs | rfl
      · have hs200 : s ≠ 200 := by omega
        simp [searchCommercialVideos, hs200]
      · by_cases hs : s = 200 <;> simp [searchCommercialVideos, hs]
  · simp [searchCommercialVideos]

theorem search_failure_yields_empty_witness :
    searchCommercialVideos FetchOutcome.failure = []
    ∧ searchCommercialVideos (FetchOutcome.response 200 (JsonBody.parsed [])) = [] :=
  search_failure_yields_empty FetchOutcome.failure (Or.inl rfl)

/-- Claim C8: starting from the empty log, any sequence of operations
leaves `conversation_history` with at most its capacity of 100 records;
appending to a full log evicts exactly the oldest record and keeps the
remaining records in order, appending to a non-full log keeps every record
in order, and every non-appending operation leaves the log unchanged. -/
theorem interaction_log_bounded (ops : List HistOp) :
    (ops.foldl histStep []).length ≤ 100
    ∧ (∀ (hist : List InteractionRecord) (x : InteractionRecord),
        hist.length = 100 → dequeAppend 100 hist x = hist.tail ++ [x])
    ∧ (∀ (hist : List InteractionRecord) (x : InteractionRecord),
        hist.length < 100 → dequeAppend 100 hist x = hist ++ [x])
    ∧ (∀ (hist : List InteractionRecord) (s : ℚ), histStep hist (HistOp.feedback s) = hist) := by
  refine ⟨foldl_histStep_le ops [] (by simp), ?_, ?_, ?_⟩
  · intro hist x h
    exact dequeAppend_full hist x h
  · intro hist x h
    exact dequeAppend_lt 100 hist x h
  · intro hist s
    rfl

theorem interaction_log_bounded_witness :
    (([HistOp.turn samplePlain sampleReply 0 true]).foldl histStep []).length ≤ 100
    ∧ dequeAppend 100 (List.replicate 100 sampleRecord) sampleRecord
        = (List.replicate 100 sampleRecord).tail ++ [sampleRecord] :=
  ⟨(interaction_log_bounded [HistOp.turn samplePlain sampleReply 0 true]).1,
   (interaction_log_bounded []).2.1 (List.replicate 100 sampleRecord) sampleRecord (by simp)⟩

/-- Claim C9: greeting detection is case-insensitive substring containment
against a fixed pattern list containing `はい` and `hi`, so any input whose
lowered form contains either pattern anywhere inside it takes the greeting
branch of `generate_response` and never reaches the content-search or
topical branches. -/
theorem greeting_containment_overrides (text : String) (hasE : Bool)
    (h : strHas (lowerStr text) sampleHai = true ∨ strHas (lowerStr text) hiWord = true) :
    isGreeting text = true ∧ responseBranch text hasE = RBranch.greeting := by
  have hg : isGreeting text = true := by
    unfold isGreeting
    rw [List.any_eq_true]
    rcases h with h | h
    · exact ⟨sampleHai, by decide, h⟩
    · exact ⟨hiWord, by decide, h⟩
  exact ⟨hg, by simp [responseBranch, hg]⟩

theorem greeting_containment_overrides_witness :
    isGreeting sampleHai = true ∧ responseBranch sampleHai true = RBranch.greeting :=
  greeting_containment_overrides sampleHai true (Or.inl (by decide))

/-- Claim C10: for every input text, including the empty string, the
engagement level is at least the base score 0.5, hence always lies in
`[0.5, 1.0]` and the lower half of `[0,1]` is unreachable. -/
theorem engagement_never_below_base (text : String) :
    (1:ℚ)/2 ≤ calculateEngagement text ∧ calculateEngagement text ≤ 1 :=
  seq_bounds (condPrecure text) (condSearch text) (condLong text) (condSymbol text)

/-! ## Claims C2, C4, C6 -/

/-- Claim C2 (counterexample): the input `ぎゅー` contains an affectionate
keyword and its detected emotion is neutral (not in the tsundere family),
yet the returned mode is `cute`, not `sweet` — the mode-resolution block is
skipped entirely when no emotion-category keyword matches. -/
theorem affectionate_without_emotion_keeps_cute :
    detectEmotionAndMode sampleGyu = (neutralTag, cuteTag)
    ∧ (affectionateKeywords.any (fun k => strHas (lowerStr sampleGyu) k)) = true
    ∧ (detectEmotionAndMode sampleGyu).2 ≠ sweetTag := by
  refine ⟨by decide, by decide, by decide⟩

/-- Claim C2 (amended): for every input that contains an affectionate
keyword, whose detected emotion is not in the tsundere family, and for
which at least one emotion-category keyword matched (the detected emotion
is not neutral), the returned mode is `sweet`; without any emotion-keyword
match the mode stays at its `cute` default. -/
theorem affectionate_gives_sweet (text : String)
    (h1 : (detectEmotionAndMode text).1 ≠ neutralTag)
    (h2 : strHas (detectEmotionAndMode text).1 tsundereTag = false)
    (h3 : (affectionateKeywords.any (fun k => strHas (lowerStr text) k)) = true) :
    (detectEmotionAndMode text).2 = sweetTag := by
  rcases hp : detectPos text with _ | ⟨q, qs⟩
  · exact absurd (by simp [detectEmotionAndMode, hp]) h1
  · have hfst : (detectEmotionAndMode text).1 = (pickMax q qs).1 := by
      simp [detectEmotionAndMode, hp]
    have hsnd : (detectEmotionAndMode text).2 = modeFor (lowerStr text) (pickMax q qs).1 := by
      simp [detectEmotionAndMode, hp]
    rw [hfst] at h2
    rw [hsnd, modeFor]
    simp [h2, h3]

theorem affectionate_gives_sweet_witness :
    (detectEmotionAndMode sampleJoySweet).2 = sweetTag :=
  affectionate_gives_sweet sampleJoySweet (by decide) (by decide) (by decide)

/-- Claim C4 (counterexample): the greeting `おはよう` is a conversational
turn (non-empty, not a command, feedback integer or exit word), yet a
`generate_response` call on it appends no record to the interaction log —
the greeting branch returns before `record_interaction` is reached. -/
theorem greeting_turn_logs_nothing :
    generateResponseHistory [] sampleGreet sampleReply 0 false = []
    ∧ isGreeting sampleGreet = true := by
  refine ⟨by decide, by decide⟩

/-- Claim C4 (amended): `generate_response` appends exactly one interaction
record (input, output, context, timestamp, topic) for the turns that reach
the base-response path, and appends nothing on turns answered by the
greeting override or by the content-search override. -/
theorem base_turn_logs_exactly_one (hist : List InteractionRecord) (input response : String)
    (ts : Nat) (hasE : Bool) (hlen : hist.length < 100) :
    (responseBranch input hasE = RBranch.base →
      generateResponseHistory hist input response ts hasE
        = hist ++ [{ userInput := input, aiResponse := response,
                     context := createContext hist input, timestamp := ts,
                     topic := getMainTopic input }])
    ∧ (responseBranch input hasE ≠ RBranch.base →
      generateResponseHistory hist input response ts hasE = hist) := by
  constructor
  · intro hb
    simp only [generateResponseHistory, hb, recordInteraction]
    exact dequeAppend_lt 100 hist _ hlen
  · intro hb
    rcases hR : responseBranch input hasE with _ | _ | _
    · simp [generateResponseHistory, hR]
    · simp [generateResponseHistory, hR]
    · exact absurd hR hb

theorem base_turn_logs_exactly_one_witness :
    generateResponseHistory [] samplePlain sampleReply 0 true
      = [{ userInput := samplePlain, aiResponse := sampleReply,
           context := createContext [] samplePlain, timestamp := 0,
           topic := getMainTopic samplePlain }] :=
  (base_turn_logs_exactly_one [] samplePlain sampleReply 0 true (by decide)).1 (by decide)

theorem mode_three (text : String) :
    (detectEmotionAndMode text).2 = cuteTag ∨ (detectEmotionAndMode text).2 = tsundereTag ∨
      (detectEmotionAndMode text).2 = sweetTag := by
  rcases hp : detectPos text with _ | ⟨q, qs⟩
  · left; simp [detectEmotionAndMode, hp]
  · have hsnd : (detectEmotionAndMode text).2 = modeFor (lowerStr text) (pickMax q qs).1 := by
      simp [detectEmotionAndMode, hp]
    rw [hsnd, modeFor]
    split_ifs <;> simp

theorem period_three (hour : Nat) :
    getTimePeriod hour = morningTag ∨ getTimePeriod hour = afternoonTag ∨
      getTimePeriod hour = eveningTag := by
  unfold getTimePeriod
  split_ifs <;> simp

theorem greetings_nonempty (p m : String)
    (hp : p = morningTag ∨ p = afternoonTag ∨ p = eveningTag)
    (hm : m = cuteTag ∨ m = tsundereTag ∨ m = sweetTag) :
    timeBasedGreetings p m ≠ [] := by
  rcases hp with rfl | rfl | rfl <;> rcases hm with rfl | rfl | rfl <;> decide

/-- Claim C6: on any input recognized as a greeting, at any engagement
level, `generate_response` takes the greeting branch — bypassing the
content-search override and all topical logic — and the reply is drawn
from the greeting table indexed by the current hour's time bucket
(morning 05:00-11:59, afternoon 12:00-17:59, evening otherwise) and the
resolved personality mode, never from a topical response family. -/
theorem greeting_override_behaviour (text : String) (hour idx : Nat) (hasE : Bool)
    (hg : isGreeting text = true) :
    responseBranch text hasE = RBranch.greeting
    ∧ generateTimeBasedGreeting hour (detectEmotionAndMode text).2 idx
        ∈ timeBasedGreetings (getTimePeriod hour) (detectEmotionAndMode text).2
    ∧ (5 ≤ hour ∧ hour < 12 → getTimePeriod hour = morningTag)
    ∧ (12 ≤ hour ∧ hour < 18 → getTimePeriod hour = afternoonTag)
    ∧ (hour < 5 ∨ 18 ≤ hour → getTimePeriod hour = eveningTag) := by
  refine ⟨by simp [responseBranch, hg], ?_, ?_, ?_, ?_⟩
  · unfold generateTimeBasedGreeting
    exact mem_nthOr_mod _ idx emptyStr
      (greetings_nonempty _ _ (period_three hour) (mode_three text))
  · intro h
    unfold getTimePeriod
    rw [if_pos h]
  · intro h
    unfold getTimePeriod
    rw [if_neg (by omega), if_pos h]
  · intro h
    unfold getTimePeriod
    rw [if_neg (by omega), if_neg (by omega)]

theorem greeting_override_behaviour_witness :
    responseBranch sampleGreet true = RBranch.greeting
    ∧ generateTimeBasedGreeting 9 (detectEmotionAndMode sampleGreet).2 0
        ∈ timeBasedGreetings (getTimePeriod 9) (detectEmotionAndMode sampleGreet).2
    ∧ (5 ≤ 9 ∧ 9 < 12 → getTimePeriod 9 = morningTag)
    ∧ (12 ≤ 9 ∧ 9 < 18 → getTimePeriod 9 = afternoonTag)
    ∧ (9 < 5 ∨ 18 ≤ 9 → getTimePeriod 9 = eveningTag) :=
  greeting_override_behaviour sampleGreet 9 0 true (by decide)

/-! ## Claim C3: the detected emotion is the first-declared maximal category -/

theorem maxScore_cons (p : String × Nat) (l : List (String × Nat)) :
    maxScore (p :: l) = max p.2 (maxScore l) := rfl

theorem mem_le_maxScore (l : List (String × Nat)) : ∀ p ∈ l, p.2 ≤ maxScore l := by
  induction l with
  | nil => simp
  | cons q t ih =>
    intro p hp
    rcases List.mem_cons.mp hp with rfl | hp
    · rw [maxScore_cons]; exact le_max_left _ _
    · rw [maxScore_cons]; exact le_trans (ih p hp) (le_max_right _ _)

theorem maxScore_zero_iff (l : List (String × Nat)) :
    maxScore l = 0 ↔ ∀ p ∈ l, p.2 = 0 := by
  induction l with
  | nil => simp [maxScore]
  | cons q t ih =>
    rw [maxScore_cons]
    constructor
    · intro h p hp
      have h2 : q.2 = 0 ∧ maxScore t = 0 := by
        constructor <;> [exact Nat.eq_zero_of_le_zero (h ▸ le_max_left _ _);
          exact Nat.eq_zero_of_le_zero (h ▸ le_max_right _ _)]
      rcases List.mem_cons.mp hp with rfl | hp
      · exact h2.1
      · exact (ih.mp h2.2) p hp
    · intro h
      have hq : q.2 = 0 := h q (List.mem_cons_self q t)
      have ht : maxScore t = 0 := ih.mpr (fun p hp => h p (List.mem_cons_of_mem q hp))
      rw [hq, ht]
      simp

theorem maxScore_posFilter (l : List (String × Nat)) :
    maxScore (posFilter l) = maxScore l := by
  induction l with
  | nil => rfl
  | cons q t ih =>
    by_cases hq : 0 < q.2
    · simp only [posFilter, List.filter_cons, decide_eq_true_eq, if_pos hq] at *
      rw [maxScore_cons, maxScore_cons, ih]
    · have hq0 : q.2 = 0 := by omega
      simp only [posFilter, List.filter_cons, decide_eq_true_eq, if_neg hq] at *
      rw [maxScore_cons, ih, hq0]
      exact (Nat.zero_max _).symm

theorem find?_posFilter (l : List (String × Nat)) (m : Nat) (hm : 0 < m) :
    (posFilter l).find? (fun p => p.2 == m) = l.find? (fun p => p.2 == m) := by
  induction l with
  | nil => rfl
  | cons q t ih =>
    by_cases hq : 0 < q.2
    · simp only [posFilter, List.filter_cons, decide_eq_true_eq, if_pos hq] at *
      cases hB : (q.2 == m)
      · simp only [List.find?, hB]
        exact ih
      · simp only [List.find?, hB]
    · have hq0 : q.2 = 0 := by omega
      have hqm : (q.2 == m) = false := by
        rw [hq0]
        simp only [beq_eq_false_iff_ne, ne_eq]
        omega
      simp only [posFilter, List.filter_cons, decide_eq_true_eq, if_neg hq] at *
      simp only [List.find?, hqm]
      exact ih

theorem find?_congrOn {α : Type} (l : List α) (f g : α → Bool)
    (h : ∀ a ∈ l, f a = g a) : l.find? f = l.find? g := by
  induction l with
  | nil => rfl
  | cons a t ih =>
    have ha := h a (List.mem_cons_self a t)
    cases hf : f a
    · have hg : g a = false := by rw [← ha]; exact hf
      simp only [List.find?, hf, hg]
      exact ih (fun b hb => h b (List.mem_cons_of_mem a hb))
    · have hg : g a = true := by rw [← ha]; exact hf
      simp only [List.find?, hf, hg]

theorem pickMax_find (l : List (String × Nat)) :
    ∀ best : String × Nat,
      (best :: l).find? (fun q => decide (maxScore (best :: l) ≤ q.2))
        = some (pickMax best l) := by
  induction l with
  | nil =>
    intro best
    have hM : maxScore [best] = best.2 := by
      rw [maxScore_cons]
      exact Nat.max_eq_left (Nat.zero_le _)
    have hd : decide (maxScore [best] ≤ best.2) = true := by
      rw [hM]; simp
    simp only [pickMax, List.find?, hd]
  | cons p t ih =>
    intro best
    by_cases hlt : best.2 < p.2
    · -- the scan replaces best by p
      have hple : p.2 ≤ maxScore (p :: t) := by
        rw [maxScore_cons]; exact le_max_left _ _
      have hM : maxScore (best :: p :: t) = maxScore (p :: t) := by
        rw [maxScore_cons]
        exact Nat.max_eq_right (le_trans hlt.le hple)
      have hpick : pickMax best (p :: t) = pickMax p t := by
        simp only [pickMax]
        rw [if_pos hlt]
      rw [hpick, hM, ← ih p]
      have hbf : decide (maxScore (p :: t) ≤ best.2) = false := by
        simp only [decide_eq_false_iff_not]
        omega
      simp only [List.find?, hbf]
    · -- best is kept
      have hple : p.2 ≤ best.2 := by omega
      have hM : maxScore (best :: p :: t) = maxScore (best :: t) := by
        rw [maxScore_cons, maxScore_cons, maxScore_cons]
        rcases le_total p.2 (maxScore t) with h | h
        · rw [Nat.max_eq_right h]
        · rw [Nat.max_eq_left h, Nat.max_eq_left hple, Nat.max_eq_left (le_trans h hple)]
      have hpick : pickMax best (p :: t) = pickMax best t := by
        simp only [pickMax]
        rw [if_neg hlt]
      rw [hpick, hM, ← ih best]
      by_cases hb : maxScore (best :: t) ≤ best.2
      · have hbt : decide (maxScore (best :: t) ≤ best.2) = true := by simp [hb]
        simp only [List.find?, hbt]
      · have hbf : decide (maxScore (best :: t) ≤ best.2) = false := by simp [hb]
        have hpf : decide (maxScore (best :: t) ≤ p.2) = false := by
          simp only [decide_eq_false_iff_not]
          omega
        simp only [List.find?, hbf, hpf]

/-- Claim C3: for every input text, the emotion returned by
`detect_emotion_and_mode` equals the reference value — the category with
the maximum count of its keywords in the case-folded text, ties broken in
favour of the first-declared category — and when no category's keyword
occurs the result is `(neutral, cute)`; the single-matching-category case
is an instance of the reference equality. -/
theorem detect_matches_reference (text : String) :
    (detectEmotionAndMode text).1 = refEmotion text
    ∧ ((∀ p ∈ emotionScores text, p.2 = 0) →
        detectEmotionAndMode text = (neutralTag, cuteTag)) := by
  constructor
  · rcases hp : detectPos text with _ | ⟨q, qs⟩
    · -- no category scored
      have h0 : posFilter (emotionScores text) = [] := hp
      have hz : maxScore (emotionScores text) = 0 := by
        rw [← maxScore_posFilter (emotionScores text), h0]
        rfl
      simp [detectEmotionAndMode, hp, refEmotion, hz]
    · -- some category scored
      have h0 : posFilter (emotionScores text) = q :: qs := hp
      have hMeq : maxScore (emotionScores text) = maxScore (q :: qs) := by
        rw [← maxScore_posFilter (emotionScores text), h0]
      have hpos : 0 < maxScore (emotionScores text) := by
        have hq : q ∈ (emotionScores text).filter (fun p => decide (0 < p.2)) := by
          have hq0 : q ∈ posFilter (emotionScores text) := by
            rw [h0]; exact List.mem_cons_self q qs
          exact hq0
        have hq2 : 0 < q.2 := by simpa using List.of_mem_filter hq
        have hle : q.2 ≤ maxScore (posFilter (emotionScores text)) :=
          mem_le_maxScore _ q hq
        rw [maxScore_posFilter] at hle
        omega
      have hfind : (emotionScores text).find?
          (fun r => r.2 == maxScore (emotionScores text)) = some (pickMax q qs) := by
        rw [← find?_posFilter (emotionScores text) _ hpos, h0, hMeq, ← pickMax_find qs q]
        apply find?_congrOn
        intro r hr
        have hrle : r.2 ≤ maxScore (q :: qs) := mem_le_maxScore _ r hr
        by_cases he : maxScore (q :: qs) ≤ r.2
        · have hre : r.2 = maxScore (q :: qs) := le_antisymm hrle he
          simp [hre, he]
        · have hne : r.2 ≠ maxScore (q :: qs) := by omega
          simp [hne, he]
      have hdet : (detectEmotionAndMode text).1 = (pickMax q qs).1 := by
        simp [detectEmotionAndMode, hp]
      rw [hdet]
      simp only [refEmotion]
      rw [if_neg (by omega), hfind]
      rfl
  · intro hall
    have h0 : posFilter (emotionScores text) = [] := by
      rcases hF : posFilter (emotionScores text) with _ | ⟨r, rs⟩
      · rfl
      · exfalso
        have hr : r ∈ (emotionScores text).filter (fun p => decide (0 < p.2)) := by
          have hr0 : r ∈ posFilter (emotionScores text) := by
            rw [hF]; exact List.mem_cons_self r rs
          exact hr0
        have h1 : 0 < r.2 := by simpa using List.of_mem_filter hr
        have h2 : r ∈ emotionScores text := List.mem_of_mem_filter hr
        rw [hall r h2] at h1
        omega
    have hdp : detectPos text = [] := h0
    simp [detectEmotionAndMode, hdp]

theorem detect_matches_reference_witness :
    (detectEmotionAndMode sampleNeutralText).1 = refEmotion sampleNeutralText
    ∧ detectEmotionAndMode sampleNeutralText = (neutralTag, cuteTag) :=
  ⟨(detect_matches_reference sampleNeutralText).1,
   (detect_matches_reference sampleNeutralText).2 (by decide)⟩

end PrecureAI
